import Mathlib

/-!
Shallow embedding of `river/optim/base.py` (the `Optimizer` lifecycle) and
`river/optim/initializers.py` (the `Constant`, `Zeros` and `Normal` weight
initializers), together with theorems checking the specification's claims
against these definitions.

Conventions of the embedding:
* Python floats are modelled as rationals (`ℚ`); none of the operations under
  study performs any arithmetic whose outcome depends on floating-point
  rounding (values are stored and returned, or combined linearly with an
  abstract random stream).
* Methods that can mutate `self` are modelled as state-passing functions
  returning a `result × state` pair; a method body with no field assignment
  returns its receiver unchanged.
* Code that can raise is modelled with `Except`.
* Weight vectors `w` and gradients `g` are opaque type parameters: the base
  lifecycle never inspects them.
-/

namespace RiverOptim

/-- Modelled from the spec: the `schedulers.Scheduler` interface (the
`schedulers` module is imported by `base.py` but its source is not part of
this excerpt).  A scheduler is consumed only through `get(iteration) -> rate`,
a pure function of the iteration count. -/
structure Scheduler where
  get : Nat → ℚ

/-- Modelled from the spec: `schedulers.Constant`, the constant-rate schedule
that a plain numeric learning rate is normalized into; `get` ignores the
iteration count and returns the stored rate. -/
def Scheduler.const (r : ℚ) : Scheduler :=
  ⟨fun _ => r⟩

/-- The argument accepted by `Optimizer.__init__`: either a plain number or a
scheduler object (`lr: typing.Union[schedulers.Scheduler, float]`). -/
inductive LrArg where
  | num (r : ℚ)
  | sched (s : Scheduler)

/-- The state of an `Optimizer` instance: the scheduler stored in `self.lr`
and the iteration counter `self.n_iterations`. -/
structure Optimizer where
  lr : Scheduler
  n_iterations : Nat

/-- `Optimizer.__init__`: a numeric `lr` is wrapped into
`schedulers.Constant(lr)`, a scheduler is stored as-is, and
`self.n_iterations` is set to `0`. -/
def Optimizer.init (lr : LrArg) : Optimizer :=
  match lr with
  | .num r => ⟨Scheduler.const r, 0⟩
  | .sched s => ⟨s, 0⟩

/-- The `learning_rate` property: `return self.lr.get(self.n_iterations)`. -/
def Optimizer.learning_rate (o : Optimizer) : ℚ :=
  o.lr.get o.n_iterations

/-- The `learning_rate` property as a state-passing read: the body performs no
field assignment, so the post-state is the receiver itself. -/
def Optimizer.get_learning_rate (o : Optimizer) : ℚ × Optimizer :=
  (o.lr.get o.n_iterations, o)

/-- `k` successive reads of the `learning_rate` property, threading the
optimizer state through each read. -/
def readLearningRateN (o : Optimizer) : Nat → List ℚ × Optimizer
  | 0 => ([], o)
  | k + 1 =>
      let p := o.get_learning_rate
      let rest := readLearningRateN p.2 k
      (p.1 :: rest.1, rest.2)

/-- `Optimizer.update_before_pred`: the body is `return w`; no field of `self`
is assigned, so the post-state is the receiver itself. -/
def Optimizer.update_before_pred {W : Type} (o : Optimizer) (w : W) : W × Optimizer :=
  (w, o)

/-- `Optimizer.update_after_pred`: first `w = self._update_after_pred(w, g)`
(the delegated per-algorithm update, an abstract method modelled as the
function argument `upd`, which receives the current optimizer state since in
Python it is a method on `self`), then `self.n_iterations += 1`, then
`return w`. -/
def Optimizer.update_after_pred {W G : Type} (upd : Optimizer → W → G → W)
    (o : Optimizer) (w : W) (g : G) : W × Optimizer :=
  let w' := upd o w g
  (w', { o with n_iterations := o.n_iterations + 1 })

/-- Calls `update_after_pred` once per element of `inputs`, threading the
optimizer state, and records the iteration count that each delegated call
observed (the counter of the state handed to `upd`).  Returns the final
optimizer state and that trace. -/
def runUpdates {W G : Type} (upd : Optimizer → W → G → W) (o : Optimizer) :
    List (W × G) → Optimizer × List Nat
  | [] => (o, [])
  | (w, g) :: rest =>
      let p := o.update_after_pred upd w g
      let q := runUpdates upd p.2 rest
      (q.1, o.n_iterations :: q.2)

/-- `Optimizer.update_after_pred` when the delegated `_update_after_pred` may
raise: the delegate is run first; if it raises, the exception propagates and
the increment statement is never reached, so the post-state is the receiver;
otherwise the counter is incremented as usual. -/
def Optimizer.update_after_pred_exc {W G E : Type}
    (upd : Optimizer → W → G → Except E W) (o : Optimizer) (w : W) (g : G) :
    Except E W × Optimizer :=
  match upd o w g with
  | .error e => (.error e, o)
  | .ok w' => (.ok w', { o with n_iterations := o.n_iterations + 1 })

/-- The raw argument a caller may actually pass to `Optimizer.__init__`: a
number, a scheduler, or some other object that is neither (`other`), since
Python does not enforce the annotation. -/
inductive RawLrArg where
  | num (r : ℚ)
  | sched (s : Scheduler)
  | other

/-- What `self.lr` holds after `__init__`: a scheduler (the numeric case was
wrapped, a scheduler was stored as-is), or the unusable non-scheduler object
stored unchanged by `self.lr = lr`. -/
inductive StoredLr where
  | sched (s : Scheduler)
  | other

/-- Optimizer state as actually produced by `__init__` on a raw argument. -/
structure RawOptimizer where
  lr : StoredLr
  n_iterations : Nat

/-- `Optimizer.__init__` on a raw argument, with `Except` recording any
exception the constructor body could raise.  The body is
`if isinstance(lr, numbers.Number): lr = schedulers.Constant(lr)` followed by
two field assignments; it contains no raise and no validation, so every
branch returns `.ok`. -/
def Optimizer.initRaw (lr : RawLrArg) : Except String RawOptimizer :=
  match lr with
  | .num r => .ok ⟨.sched (Scheduler.const r), 0⟩
  | .sched s => .ok ⟨.sched s, 0⟩
  | .other => .ok ⟨.other, 0⟩

/-- The `learning_rate` property on a raw optimizer: `self.lr.get(...)` raises
(an `AttributeError`) when `self.lr` is not a scheduler. -/
def RawOptimizer.learning_rate (o : RawOptimizer) : Except String ℚ :=
  match o.lr with
  | .sched s => .ok (s.get o.n_iterations)
  | .other => .error "AttributeError"

/-- Python `abc` semantics for `Optimizer`: a concrete subclass either
overrides the abstract method `_update_after_pred` (the `some` case) or does
not; instantiating a subclass that leaves it abstract raises `TypeError`. -/
def instantiateConcrete {W G : Type} (impl : Option (Optimizer → W → G → W)) :
    Except String (Optimizer → W → G → W) :=
  match impl with
  | some f => .ok f
  | none => .error "TypeError: abstract method _update_after_pred"

/-- The body of the abstract method `Optimizer._update_after_pred` itself:
`raise NotImplementedError` — there is no default update behavior to fall
back to even if the body is reached. -/
def Optimizer.update_after_pred_abstract {W G : Type} (_o : Optimizer) (_w : W) (_g : G) :
    Except String W :=
  .error "NotImplementedError"

/-- The value returned by an initializer: Python returns either the bare
scalar or a numpy array, depending on the requested shape. -/
inductive InitResult where
  | scalar (v : ℚ)
  | array (vs : List ℚ)
deriving DecidableEq

/-- `initializers.Constant`: stores `self.value`. -/
structure Constant where
  value : ℚ

/-- `Constant.__call__`:
`return np.full(shape, self.value) if shape != 1 else self.value`.
`np.full(shape, value)` for an integer shape is the array of that many copies
of `value`. -/
def Constant.call (c : Constant) (shape : Nat) : InitResult :=
  if shape ≠ 1 then .array (List.replicate shape c.value) else .scalar c.value

/-- `initializers.Zeros`: `super().__init__(value=0.)` — it is the `Constant`
instance with value `0` and inherits `__call__` unchanged. -/
def Zeros : Constant :=
  ⟨0⟩

/-- The state of a `Normal` initializer instance: the distribution parameters
and the state of the `np.random.RandomState(seed)` stream created in
`__init__`, modelled as the seed plus the number of draws already consumed
(`pos`, `0` at construction).  The engine internals are external: the draws
themselves are an abstract function `gauss : seed → position → ℚ` supplied to
the operations, standing for the deterministic standard-normal stream the
seeded engine produces. -/
structure NormalInit where
  mu : ℚ
  sigma : ℚ
  seed : Nat
  pos : Nat

/-- `Normal.__init__(mu, sigma, seed)`: stores the parameters and creates the
fresh stream `np.random.RandomState(seed)` (no draws consumed yet). -/
def NormalInit.fresh (mu sigma : ℚ) (seed : Nat) : NormalInit :=
  ⟨mu, sigma, seed, 0⟩

/-- `Normal.__call__(shape)`:
`weights = self._rng.normal(loc=self.mu, scale=self.sigma, size=shape)` draws
`shape` values from the instance's stream (value `i` of the batch is
`mu + sigma * gauss seed (pos + i)`), advancing the stream by `shape`; then
`weights[0]` is returned when `shape == 1`, else the array. -/
def NormalInit.call (gauss : Nat → Nat → ℚ) (s : NormalInit) (shape : Nat) :
    InitResult × NormalInit :=
  let weights := (List.range shape).map fun i => s.mu + s.sigma * gauss s.seed (s.pos + i)
  let s' := { s with pos := s.pos + shape }
  (if shape = 1 then .scalar weights.headI else .array weights, s')

/-- Replays a sequence of shape requests against a `Normal` instance,
threading its stream state; returns the outputs in order and the final
state. -/
def NormalInit.run (gauss : Nat → Nat → ℚ) (s : NormalInit) :
    List Nat → List InitResult × NormalInit
  | [] => ([], s)
  | shape :: rest =>
      let p := s.call gauss shape
      let q := p.2.run gauss rest
      (p.1 :: q.1, q.2)

/-! ## Theorems -/

/-- Helper: running `update_after_pred` over a list of inputs from any state
leaves the scheduler untouched, adds the number of calls to the counter, and
hands the delegate the consecutive pre-increment counts. -/
theorem runUpdates_spec {W G : Type} (upd : Optimizer → W → G → W) (o : Optimizer)
    (inputs : List (W × G)) :
    runUpdates upd o inputs =
      (⟨o.lr, o.n_iterations + inputs.length⟩,
        List.range' o.n_iterations inputs.length) := by
  induction inputs generalizing o with
  | nil => simp [runUpdates]
  | cons p rest ih =>
      obtain ⟨w, g⟩ := p
      simp only [runUpdates, Optimizer.update_after_pred, ih, List.range'_succ,
        List.length_cons]
      have h : o.n_iterations + 1 + rest.length = o.n_iterations + (rest.length + 1) := by
        omega
      rw [h]

/-- C1: starting from a freshly constructed optimizer (counter `0`) and
calling `update_after_pred` `n` times leaves the iteration counter equal to
`n`, and the delegated update of the `k`-th call observed the pre-increment
count `k` (hence the learning rate for that count), the counter being
incremented by exactly `1`, unconditionally, only afterwards. -/
theorem update_after_pred_counts {W G : Type} (lr : LrArg)
    (upd : Optimizer → W → G → W) (inputs : List (W × G)) :
    (runUpdates upd (Optimizer.init lr) inputs).1.n_iterations = inputs.length ∧
    (runUpdates upd (Optimizer.init lr) inputs).2 = List.range inputs.length := by
  have hz : (Optimizer.init lr).n_iterations = 0 := by cases lr <;> rfl
  rw [runUpdates_spec, hz]
  exact ⟨Nat.zero_add _, (List.range_eq_range' _).symm⟩

/-- C2: the base `update_before_pred` returns its weight-mapping argument
unchanged and leaves the optimizer state (in particular the iteration
counter) untouched; its embedding is a total function, so it raises on no
well-formed input. -/
theorem update_before_pred_id {W : Type} (o : Optimizer) (w : W) :
    o.update_before_pred w = (w, o) :=
  rfl

/-- C3: constructing an optimizer from a plain number `r` normalizes it into
the constant scheduler, so `learning_rate` reads exactly `r` before any
update and still `r` after any sequence of `update_after_pred` calls. -/
theorem numeric_lr_constant {W G : Type} (r : ℚ) (upd : Optimizer → W → G → W)
    (inputs : List (W × G)) :
    (Optimizer.init (.num r)).lr = Scheduler.const r ∧
    (Optimizer.init (.num r)).learning_rate = r ∧
    (runUpdates upd (Optimizer.init (.num r)) inputs).1.learning_rate = r := by
  refine ⟨rfl, rfl, ?_⟩
  rw [runUpdates_spec]
  rfl

/-- C4: reading the `learning_rate` property is a pure read: for any optimizer
state, `k` successive reads with no intervening update all return the same
value `o.learning_rate` and leave the state exactly as it was. -/
theorem learning_rate_pure_read (o : Optimizer) (k : Nat) :
    readLearningRateN o k = (List.replicate k o.learning_rate, o) := by
  induction k with
  | zero => rfl
  | succ n ih =>
      simp [readLearningRateN, Optimizer.get_learning_rate, ih,
        Optimizer.learning_rate, List.replicate_succ]

/-- C5: `Constant(v)(1)` is the bare value `v` itself (no array wrapping), and
for any shape `k > 1`, `Constant(v)(k)` is the array of `k` copies of `v`
(length `k`, every element `v`); the embedding is a pure function, so two
calls with the same shape are definitionally equal (determinism). -/
theorem constant_call_spec (v : ℚ) (k : Nat) (hk : 1 < k) :
    (Constant.mk v).call 1 = .scalar v ∧
    (Constant.mk v).call k = .array (List.replicate k v) ∧
    (List.replicate k v).length = k := by
  refine ⟨by simp [Constant.call], ?_, List.length_replicate _ _⟩
  simp [Constant.call, hk.ne']

/-- Witness for C5 at `v = 3.14`, `k = 2`. -/
theorem constant_call_spec_w :
    (1 : Nat) < 2 ∧
    ((Constant.mk (157 / 50 : ℚ)).call 1 = .scalar (157 / 50) ∧
      (Constant.mk (157 / 50 : ℚ)).call 2 = .array (List.replicate 2 (157 / 50 : ℚ)) ∧
      (List.replicate 2 (157 / 50 : ℚ)).length = 2) :=
  ⟨by norm_num, constant_call_spec (157 / 50) 2 (by norm_num)⟩

/-- Helper: replaying shape requests advances the instance's stream position
by the total number of draws, one shared stream consumed in call order. -/
theorem NormalInit.run_pos (gauss : Nat → Nat → ℚ) (s : NormalInit)
    (shapes : List Nat) :
    (s.run gauss shapes).2.pos = s.pos + shapes.sum := by
  induction shapes generalizing s with
  | nil => simp [NormalInit.run]
  | cons a rest ih =>
      simp only [NormalInit.run, NormalInit.call, ih, List.sum_cons]
      omega

/-- C6: two freshly constructed `Normal` initializers with the same `mu`,
`sigma` and seed, replaying the same sequence of shape requests against the
same underlying random engine, produce identical output sequences; the draws
come from the single stream owned by the instance, whose position starts at
`0` at construction and advances by every call (final position is the total
number of draws), so outputs depend on the order and history of prior calls
on that instance. -/
theorem normal_reproducibility (gauss : Nat → Nat → ℚ) (mu sigma : ℚ)
    (seed : Nat) (shapes : List Nat) (s1 s2 : NormalInit)
    (h1 : s1 = NormalInit.fresh mu sigma seed)
    (h2 : s2 = NormalInit.fresh mu sigma seed) :
    s1.run gauss shapes = s2.run gauss shapes ∧
    (s1.run gauss shapes).2.pos = shapes.sum := by
  subst h1; subst h2
  exact ⟨rfl, by rw [NormalInit.run_pos]; simp [NormalInit.fresh]⟩

/-- Witness for C6 with `mu = 0`, `sigma = 1`, seed `42`, shape requests
`[1, 2]` and a concrete stream. -/
theorem normal_reproducibility_w :
    (NormalInit.fresh 0 1 42 = NormalInit.fresh 0 1 42 ∧
      NormalInit.fresh 0 1 42 = NormalInit.fresh 0 1 42) ∧
    ((NormalInit.fresh 0 1 42).run (fun _ _ => 0) [1, 2] =
        (NormalInit.fresh 0 1 42).run (fun _ _ => 0) [1, 2] ∧
      ((NormalInit.fresh 0 1 42).run (fun _ _ => 0) [1, 2]).2.pos = [1, 2].sum) :=
  ⟨⟨rfl, rfl⟩,
    normal_reproducibility (fun _ _ => 0) 0 1 42 [1, 2] _ _ rfl rfl⟩

/-- C7: `Zeros()` is extensionally identical to `Constant(0.0)` — it is the
`Constant` instance with value `0` and inherits `__call__`, so every shape
request returns the same result; in particular `Zeros()(1) = 0.0` and
`Zeros()(3)` is three zero elements. -/
theorem zeros_eq_constant_zero :
    (∀ shape : Nat, Zeros.call shape = (Constant.mk 0).call shape) ∧
    Zeros.call 1 = .scalar 0 ∧
    Zeros.call 3 = .array [0, 0, 0] :=
  ⟨fun _ => rfl, rfl, rfl⟩

/-- C8 counterexample: constructing an optimizer with the negative learning
rate `-1`, or with a non-numeric value that is no scheduler, succeeds — the
constructor validates nothing and raises nothing; the negative rate is
wrapped into a constant scheduler and read back as `-1`. -/
theorem init_accepts_invalid_lr :
    (Optimizer.initRaw (.num (-1))).isOk = true ∧
    (Optimizer.initRaw .other).isOk = true ∧
    Optimizer.initRaw (.num (-1)) = .ok ⟨.sched (Scheduler.const (-1)), 0⟩ ∧
    RawOptimizer.learning_rate ⟨.sched (Scheduler.const (-1)), 0⟩ = .ok (-1) :=
  ⟨rfl, rfl, rfl, rfl⟩

/-- C8 amended: construction never fails, whatever the argument — a negative
number is wrapped into a constant scheduler without validation and a
non-numeric non-scheduler value is stored as-is; failure for an invalid
value is deferred to the first use of the scheduler interface (reading
`learning_rate` then raises), not surfaced at construction time. -/
theorem init_no_validation (a : RawLrArg) :
    (Optimizer.initRaw a).isOk = true ∧
    (RawOptimizer.learning_rate ⟨.other, 0⟩).isOk = false :=
  ⟨by cases a <;> rfl, rfl⟩

/-- C9: a concrete optimizer variant that does not provide the
`_update_after_pred` extension point cannot be used silently: instantiating
it is an immediate error (`abc` refuses to instantiate a class with an
abstract method), and the base method body itself raises rather than
providing any default update behavior. -/
theorem abstract_update_surfaced :
    (instantiateConcrete (W := Unit) (G := Unit) none).isOk = false ∧
    ∀ (o : Optimizer) (w g : Unit),
      (Optimizer.update_after_pred_abstract o w g).isOk = false :=
  ⟨rfl, fun _ _ _ => rfl⟩

/-- C10: when the delegated `_update_after_pred` raises, `update_after_pred`
propagates the exception and the iteration counter is left unchanged — the
increment statement after the delegated call is never reached, so the whole
optimizer state after the failed call equals the state before it. -/
theorem failed_update_keeps_counter {W G E : Type}
    (upd : Optimizer → W → G → Except E W) (o : Optimizer) (w : W) (g : G)
    (e : E) (h : upd o w g = .error e) :
    Optimizer.update_after_pred_exc upd o w g = (.error e, o) := by
  simp [Optimizer.update_after_pred_exc, h]

/-- Witness for C10: a delegate that always raises, applied to a freshly
constructed optimizer. -/
theorem failed_update_keeps_counter_w :
    ((fun (_ : Optimizer) (_ : Unit) (_ : Unit) =>
          (.error "boom" : Except String Unit))
        (Optimizer.init (.num 1)) () () = .error "boom") ∧
    Optimizer.update_after_pred_exc
        (fun _ _ _ => (.error "boom" : Except String Unit))
        (Optimizer.init (.num 1)) () () = (.error "boom", Optimizer.init (.num 1)) :=
  ⟨rfl, failed_update_keeps_counter _ (Optimizer.init (.num 1)) () () "boom" rfl⟩

end RiverOptim
